import Mathlib

/-!
# Verification of the drip-table core against its specification

Shallow embedding of the drip-table rendering core (JDFED/drip-table):
JavaScript values are modelled by the inductive `JSValue`, JavaScript
objects by association lists (`Obj`), and the operations of the source
(`Object.assign`, spread, field access, `??`, truthiness, `===`) by
executable Lean functions.  The table orchestrator's column generation,
render generation, subtable-property resolution, row-key assignment,
state store and change handler are translated from
`packages/drip-table/src/drip-table/index.tsx` and
`packages/drip-table-generator/src/hooks.ts`.
-/

namespace DripTableSpec

/-- A JavaScript value: `undefined`, `null`, booleans, numbers (modelled as
integers, fractional values are irrelevant to the verified code paths),
strings, arrays, and objects as ordered association lists of fields. -/
inductive JSValue where
  | undef : JSValue
  | null : JSValue
  | bool : Bool → JSValue
  | num : Int → JSValue
  | str : String → JSValue
  | arr : List JSValue → JSValue
  | obj : List (String × JSValue) → JSValue

/-- A JavaScript object: an ordered list of (key, value) fields.  When two
fields share a key the later one wins, matching JavaScript literal and
`Object.assign` semantics. -/
abbrev Obj := List (String × JSValue)

/-- JavaScript truthiness: `undefined`, `null`, `false`, `0` and `""` are
falsy; every other value (including empty arrays and objects) is truthy. -/
def truthy : JSValue → Bool
  | JSValue.undef => false
  | .null => false
  | .bool b => b
  | .num n => n != 0
  | .str s => s != ""
  | .arr _ => true
  | .obj _ => true

/-- Is the value `null` or `undefined` (the nullish values of `??`)? -/
def isNullish : JSValue → Bool
  | JSValue.undef => true
  | .null => true
  | _ => false

/-- `typeof v === "undefined"` test. -/
def isUndef : JSValue → Bool
  | JSValue.undef => true
  | _ => false

/-- The JavaScript nullish-coalescing operator `a ?? b`. -/
def nullishCoalesce (a b : JSValue) : JSValue :=
  if isNullish a then b else a

/-- JavaScript strict equality `===` restricted to primitive values:
structural on `undefined`, `null`, booleans, numbers and strings; `false`
on arrays and objects (distinct heap objects are never `===` in the
verified code paths). -/
def jsStrictEq : JSValue → JSValue → Bool
  | JSValue.undef, JSValue.undef => true
  | .null, .null => true
  | .bool a, .bool b => a == b
  | .num a, .num b => a == b
  | .str a, .str b => a == b
  | _, _ => false

/-- JavaScript `String(v)` conversion for the primitive values reaching
`String(schemaColumn.width)` in the source; arrays and objects are given
coarse renderings, which no verified path inspects. -/
def jsToString : JSValue → String
  | JSValue.undef => "undefined"
  | .null => "null"
  | .bool b => if b then "true" else "false"
  | .num n => toString n
  | .str s => s
  | .arr _ => ""
  | .obj _ => "[object Object]"

/-- Field lookup returning the LAST binding of the key, if any: this is the
value a JavaScript object built from these fields in order would hold. -/
def getField? (o : Obj) (k : String) : Option JSValue :=
  (o.reverse.find? (fun p => p.1 == k)).map (fun p => p.2)

/-- JavaScript property access `o[k]`: the field's value, or `undefined`. -/
def getField (o : Obj) (k : String) : JSValue :=
  (getField? o k).getD JSValue.undef

/-- The JavaScript `in` operator / own-property test. -/
def hasField (o : Obj) (k : String) : Bool :=
  (getField? o k).isSome

/-- Writing one property: `{ ...o, [k]: v }` keeps the key in place if
present (overwriting its value) and appends it otherwise, exactly the
JavaScript key-ordering semantics. -/
def objSet (o : Obj) (k : String) (v : JSValue) : Obj :=
  if hasField o k then o.map (fun p => if p.1 = k then (k, v) else p)
  else o ++ [(k, v)]

/-- `Object.assign(a, b)` / `{ ...a, ...b }`: every field of `b` written
onto `a` in order. -/
def objAssign (a b : Obj) : Obj :=
  b.foldl (fun acc p => objSet acc p.1 p.2) a

/-- The JavaScript logical-or `a || b`: `a` when truthy, else `b`. -/
def jsOr (a b : JSValue) : JSValue :=
  if truthy a then a else b

/-- `v[k]` through a `JSValue`: field of an object value, `undefined` on
everything else (the verified paths only apply it to objects). -/
def fieldOf (v : JSValue) (k : String) : JSValue :=
  match v with
  | .obj o => getField o k
  | _ => JSValue.undef

/-- The fields of an object value (spread source); non-objects contribute
no fields. -/
def fieldsOf (v : JSValue) : Obj :=
  match v with
  | .obj o => o
  | _ => []

/-! ## Width normalization (`columnGenerator`, drip-table/index.tsx)

`let width = String(schemaColumn.width).trim();
 if ((/^[0-9]+$/uig).test(width)) { width += 'px'; }` -/

/-- The characters removed by JavaScript `String.prototype.trim`
(WhiteSpace and LineTerminator code points). -/
def jsWhitespace (c : Char) : Bool :=
  c.toNat == 9 || c.toNat == 10 || c.toNat == 11 || c.toNat == 12 ||
  c.toNat == 13 || c.toNat == 32 || c.toNat == 160 || c.toNat == 0x1680 ||
  (decide (0x2000 ≤ c.toNat) && decide (c.toNat ≤ 0x200A)) ||
  c.toNat == 0x2028 || c.toNat == 0x2029 || c.toNat == 0x202F ||
  c.toNat == 0x205F || c.toNat == 0x3000 || c.toNat == 0xFEFF

/-- The character class `[0-9]` of the width regular expression. -/
def isDigitChar (c : Char) : Bool :=
  decide (48 ≤ c.toNat) && decide (c.toNat ≤ 57)

/-- `String.prototype.trim` on the character list: drop whitespace from
both ends. -/
def jsTrimChars (cs : List Char) : List Char :=
  ((cs.dropWhile jsWhitespace).reverse.dropWhile jsWhitespace).reverse

/-- JavaScript `s.trim()`. -/
def jsTrim (s : String) : String :=
  String.mk (jsTrimChars s.data)

/-- `/^[0-9]+$/.test s`: one or more digits and nothing else. -/
def isDigitsRegexMatch (cs : List Char) : Bool :=
  (!cs.isEmpty) && cs.all isDigitChar

/-- Width normalization from `columnGenerator`: trim the stringified
width and append `px` when it is all digits. -/
def normalizeWidth (w : String) : String :=
  if isDigitsRegexMatch (jsTrim w).data then jsTrim w ++ "px" else jsTrim w

/-! ## UI state store (drip-table-generator/src/hooks.ts `useState`) -/

/-- The argument of the state-store `setState`: a direct partial patch, or
an updater function from the current state to a partial patch. -/
inductive SetStateAction where
  | patch : Obj → SetStateAction
  | updater : (Obj → Obj) → SetStateAction

/-- The reducer of the generator's `useState` hook:
`(state, action) => { const data = typeof action === 'function' ? action(state) : action;
 return { ...state, ...data }; }`. -/
def useStateReducer (state : Obj) (action : SetStateAction) : Obj :=
  let data :=
    match action with
    | .patch p => p
    | .updater f => f state
  objAssign state data

/-! ## Component resolution and cell render generation (`renderGenerator`) -/

/-- The ambient inputs of `renderGenerator`: the names of the built-in
renderer set `DripTableBuiltInComponents`, the host-supplied two-level
registry `props.components`, the `props.ajv === false` opt-out, and the
(opaque, ajv-backed) column-schema validator result. -/
structure ResolveEnv where
  builtins : List String
  registry : List (String × List String)
  ajvOff : Bool
  validateColumn : Obj → Option String

/-- The outcome of evaluating one generated cell render function. -/
inductive CellRender where
  | builtinCell : String → JSValue → Obj → Nat → CellRender
  | extraCell : String → String → JSValue → Obj → Nat → CellRender
  | validateError : String → CellRender
  | unknownPlaceholder : String → CellRender
  | thrownTypeError : CellRender

/-- The value a resolved renderer receives, if the cell resolved to a
renderer at all. -/
def cellValue : CellRender → Option JSValue
  | .builtinCell _ v _ _ => some v
  | .extraCell _ _ v _ _ => some v
  | _ => none

/-- Structural worker for JavaScript `s.split("::")`: leftmost,
non-overlapping split on the two-character separator, accumulating the
current segment in reverse. -/
def splitOnColons : List Char → List Char → List (List Char)
  | [], acc => [acc.reverse]
  | [c], acc => [(c :: acc).reverse]
  | ':' :: ':' :: rest, acc => acc.reverse :: splitOnColons rest []
  | c1 :: c2 :: rest, acc => splitOnColons (c2 :: rest) (c1 :: acc)

/-- JavaScript `s.split("::")`. -/
def jsSplitColons (s : String) : List String :=
  (splitOnColons s.data []).map String.mk

/-- `props.components?.[libName]?.[componentName]` presence. -/
def lookupRegistry (reg : List (String × List String)) (libName componentName : String) : Bool :=
  match reg.find? (fun e => e.1 == libName) with
  | some e => e.2.contains componentName
  | none => false

/-- Does a component identifier resolve through the two-level registry:
split on `::`, require both parts truthy, and look the pair up. -/
def registryResolves (env : ResolveEnv) (comp : String) : Bool :=
  match jsSplitColons comp with
  | libName :: componentName :: _ =>
    (libName != "") && (componentName != "") && lookupRegistry env.registry libName componentName
  | _ => false

/-- The `if (props.ajv !== false) { validateDripTableColumnSchema ... }`
guard wrapped around each resolved renderer in `renderGenerator`. -/
def validatedRender (env : ResolveEnv) (schema : Obj)
    (mk : JSValue → Obj → Nat → CellRender) : JSValue → Obj → Nat → CellRender :=
  if env.ajvOff then mk
  else
    match env.validateColumn schema with
    | some msg => fun _ _ _ => .validateError ("Schema validate failed: " ++ msg)
    | none => mk

/-- `renderGenerator` of drip-table/index.tsx: built-in lookup by the
(stringified) component identifier, then `"lib::name"` registry lookup,
and otherwise the inline `Unknown column component` placeholder; each
resolved renderer receives `value ?? schema.defaultValue`.  A present but
non-string `component` that misses the built-in table makes the source
throw at `schema.component.split("::")`; that branch is marked
`thrownTypeError`. -/
def renderGenerator (env : ResolveEnv) (schema : Obj) : JSValue → Obj → Nat → CellRender :=
  let cv := getField schema "component"
  let fallback : JSValue → Obj → Nat → CellRender :=
    fun _ _ _ => .unknownPlaceholder ("Unknown column component: " ++ jsToString cv)
  if hasField schema "component" then
    if env.builtins.contains (jsToString cv) then
      validatedRender env schema (fun value record index =>
        .builtinCell (jsToString cv)
          (nullishCoalesce value (getField schema "defaultValue")) record index)
    else
      match cv with
      | .str s =>
        match jsSplitColons s with
        | libName :: componentName :: _ =>
          if (libName != "") && (componentName != "") then
            if lookupRegistry env.registry libName componentName then
              validatedRender env schema (fun value record index =>
                .extraCell libName componentName
                  (nullishCoalesce value (getField schema "defaultValue")) record index)
            else fallback
          else fallback
        | _ => fallback
      | _ => fun _ _ _ => .thrownTypeError
  else fallback

/-! ## Column descriptor generation (`columnGenerator`) -/

/-- A generated column title: plain, or decorated with the description
popover when `schemaColumn.description` is truthy. -/
inductive ColumnTitle where
  | plain : JSValue → ColumnTitle
  | withDescription : JSValue → JSValue → ColumnTitle

/-- The renderer-ready column descriptor built by `columnGenerator`. -/
structure TableColumn where
  width : String
  align : JSValue
  title : ColumnTitle
  dataIndex : JSValue
  fixed : JSValue
  filters : JSValue
  defaultFilteredValue : JSValue
  ellipsis : Bool
  render : JSValue → Obj → Nat → CellRender

/-- `columnGenerator` of drip-table/index.tsx. -/
def columnGenerator (env : ResolveEnv) (schemaEllipsis : JSValue) (schemaColumn : Obj) : TableColumn :=
  { width := normalizeWidth (jsToString (getField schemaColumn "width"))
  , align := getField schemaColumn "align"
  , title :=
      if truthy (getField schemaColumn "description") then
        .withDescription (getField schemaColumn "title") (getField schemaColumn "description")
      else .plain (getField schemaColumn "title")
  , dataIndex := getField schemaColumn "dataIndex"
  , fixed := getField schemaColumn "fixed"
  , filters := getField schemaColumn "filters"
  , defaultFilteredValue := getField schemaColumn "defaultFilteredValue"
  , ellipsis := truthy schemaEllipsis
  , render := renderGenerator env schemaColumn }

/-- `tableProps.columns`: drop hidable columns whose key is not in the
display-column state, then generate each descriptor. -/
def generateColumns (env : ResolveEnv) (schemaEllipsis : JSValue)
    (displayColumnKeys : List JSValue) (columns : List Obj) : List TableColumn :=
  (columns.filter (fun column =>
    !truthy (getField column "hidable") ||
      displayColumnKeys.any (fun k => jsStrictEq k (getField column "key")))).map
    (columnGenerator env schemaEllipsis)

/-! ## Deprecated `ui:type` / `ui:props` rewrite (head of the DripTable
function component) -/

/-- `'ui:type' in column || 'ui:props' in column`, the per-column rewrite
test. -/
def isDeprecatedColumn (column : Obj) : Bool :=
  hasField column "ui:type" || hasField column "ui:props"

/-- `props.schema.columns.some(c => c['ui:type'] || c['ui:props'])`: the
whole-schema trigger, a TRUTHINESS test on the two fields. -/
def schemaUsesDeprecated (columns : List Obj) : Bool :=
  columns.any (fun c => truthy (getField c "ui:type") || truthy (getField c "ui:props"))

/-- Rewrite of one deprecated column:
`{ ...Object.fromEntries(Object.entries(column).filter(([k]) => k !== 'ui:type' && k !== 'ui:props')),
   options: column['ui:props'] || column.options || void 0,
   component: column['ui:type'] || column.component }`. -/
def rewriteColumn (column : Obj) : Obj :=
  if isDeprecatedColumn column then
    objSet
      (objSet (column.filter (fun p => !(p.1 == "ui:type" || p.1 == "ui:props")))
        "options" (jsOr (getField column "ui:props") (jsOr (getField column "options") JSValue.undef)))
      "component" (jsOr (getField column "ui:type") (getField column "component"))
  else column

/-- The column list the rest of the component sees: rewritten only when
the whole-schema trigger fires. -/
def rewriteSchemaColumns (columns : List Obj) : List Obj :=
  if schemaUsesDeprecated columns then columns.map rewriteColumn else columns

/-- One recorded `console.warn` deprecation message: the column key and
the deprecated field it was issued for. -/
structure DeprecationWarning where
  columnKey : JSValue
  deprecatedField : String

/-- The warnings one column contributes during the rewrite: one per
deprecated field present (`'ui:type' in column`, `'ui:props' in column`). -/
def columnWarnings (column : Obj) : List DeprecationWarning :=
  (if hasField column "ui:type" then [⟨getField column "key", "ui:type"⟩] else []) ++
    (if hasField column "ui:props" then [⟨getField column "key", "ui:props"⟩] else [])

/-- All warnings recorded by ONE execution of the DripTable function body
(one render): the rewrite loop runs only when the schema trigger fires. -/
def renderWarnings (columns : List Obj) : List DeprecationWarning :=
  if schemaUsesDeprecated columns then (columns.map columnWarnings).flatten else []

/-- The warnings accumulated over `n` renders of the same props: the
source keeps no memory of already-warned keys, so each render warns
again. -/
def warningsAfterRenders (n : Nat) (columns : List Obj) : List DeprecationWarning :=
  (List.replicate n (renderWarnings columns)).flatten

/-- How many recorded warnings mention a given column key. -/
def countWarningsForKey (ws : List DeprecationWarning) (k : JSValue) : Nat :=
  (ws.filter (fun w => jsStrictEq w.columnKey k)).length

/-- The columns actually handed to the driver: deprecated-form rewrite
first, then visibility filtering and descriptor generation. -/
def dripTableColumns (env : ResolveEnv) (schemaEllipsis : JSValue)
    (displayColumnKeys : List JSValue) (columns : List Obj) : List TableColumn :=
  generateColumns env schemaEllipsis displayColumnKeys (rewriteSchemaColumns columns)

/-! ## Row dataset and row keys (`tableProps.dataSource`) -/

/-- `props.schema.rowKey ?? 'key'`, coerced to a property key. -/
def resolvedRowKey (rowKey : JSValue) : String :=
  jsToString (nullishCoalesce rowKey (.str "key"))

/-- `tableProps.dataSource`: each record gets the row-key field set to its
positional index when `typeof item[rowKey] === 'undefined'`, and to its
existing value otherwise. -/
def renderedDataSource (rowKey : JSValue) (dataSource : List Obj) : List Obj :=
  dataSource.enum.map (fun ie =>
    let rk := resolvedRowKey rowKey
    objSet ie.2 rk
      (if isUndef (getField ie.2 rk) then .num (Int.ofNat ie.1) else getField ie.2 rk))

/-! ## Row expandability (`expandable.rowExpandable`) -/

/-- `expandable.rowExpandable` of drip-table/index.tsx: the host
predicate first, then `Array.isArray(record[subtable.dataSourceKey]) && ds.length > 0`. -/
def rowExpandable (custom : Option (Obj → Bool)) (subtable : Option Obj) (record : Obj) : Bool :=
  if (match custom with | some f => f record | none => false) then true
  else
    match subtable with
    | some st =>
      match getField record (jsToString (getField st "dataSourceKey")) with
      | .arr ds => decide (0 < ds.length)
      | _ => false
    | none => false

/-! ## Subtable override rules (`expandedRowRender` subtableProps) -/

/-- One entry of `props.subtableProps`: optional id matcher, optional
record-key chain, default flag, and the partial subtable properties. -/
structure SubtableRule where
  subtableID : JSValue
  recordKeys : Option (List JSValue)
  isDefault : JSValue
  properties : Obj

/-- `DEFAULT_SUBTABLE_PROPS`: both keys present, valued `undefined`. -/
def DEFAULT_SUBTABLE_PROPS : Obj :=
  [("defaultExpandAllRows", JSValue.undef), ("defaultExpandedRowKeys", JSValue.undef)]

/-- `sp => sp.default` (truthiness). -/
def ruleDefaultMatch (sp : SubtableRule) : Bool :=
  truthy sp.isDefault

/-- `sp => sp.subtableID === subtable.id`. -/
def ruleIdMatch (tableId : JSValue) (sp : SubtableRule) : Bool :=
  jsStrictEq sp.subtableID tableId

/-- `sp => sp.recordKeys && sp.recordKeys.length === 1 && sp.recordKeys[0] === record[rowKey]`. -/
def ruleKeyMatch (recordKey : JSValue) (sp : SubtableRule) : Bool :=
  match sp.recordKeys with
  | some ks => ks.length == 1 && jsStrictEq (ks.headD JSValue.undef) recordKey
  | none => false

/-- The concatenation the source spreads into `Object.assign`: rules with
the default flag, then rules matching the subtable id, then rules
matching the row's record key. -/
def matchedSubtableRules (rules : List SubtableRule) (tableId recordKey : JSValue) : List SubtableRule :=
  rules.filter ruleDefaultMatch ++ rules.filter (ruleIdMatch tableId) ++
    rules.filter (ruleKeyMatch recordKey)

/-- The `subtableProps` computation of `expandedRowRender`:
`Object.assign({}, DEFAULT_SUBTABLE_PROPS, props.subtableProps ? Object.assign({}, ...matched.map(sp => sp.properties)) : void 0)`. -/
def resolveSubtableProps (rules : Option (List SubtableRule)) (tableId recordKey : JSValue) : Obj :=
  objAssign (objAssign [] DEFAULT_SUBTABLE_PROPS)
    (match rules with
     | some rs =>
       (matchedSubtableRules rs tableId recordKey).foldl (fun acc sp => objAssign acc sp.properties) []
     | none => [])

/-- Modelled from the spec: the effective value of a field is the field of
the LAST matching rule carrying it — default-matched rules first, then
id-matched rules, then record-key-matched rules, later rules shallow
overriding earlier ones field by field — and absent (`undefined`) when no
matching rule carries the field. -/
def specEffectiveSubtableProp (rules : List SubtableRule) (tableId recordKey : JSValue) (f : String) : JSValue :=
  match (matchedSubtableRules rules tableId recordKey).reverse.find?
      (fun sp => hasField sp.properties f) with
  | some sp => getField sp.properties f
  | none => JSValue.undef

/-! ## Pagination / filter change handler (`tableProps.onChange`) -/

/-- One observable action of the change handler, in emission order: the
state-store update, then the three host callbacks. -/
inductive TableChangeStep where
  | setTableState : Obj → TableChangeStep
  | onFilterChange : JSValue → TableChangeStep
  | onPageChange : JSValue → JSValue → TableChangeStep
  | onDriverChange : Obj → JSValue → TableChangeStep

/-- `tableProps.onChange` of drip-table/index.tsx as its ordered action
trace: derive `current`/`pageSize` by `??` against the held state, set
the table state, then fire `onFilterChange`, `onPageChange`, `onChange`. -/
def handleTableChange (tableState : Obj) (pagination : Obj) (filters : JSValue) : List TableChangeStep :=
  let statePagination := fieldsOf (getField tableState "pagination")
  let current := nullishCoalesce (getField pagination "current") (getField statePagination "current")
  let pageSize := nullishCoalesce (getField pagination "pageSize") (getField statePagination "pageSize")
  let newPagination := objSet (objSet statePagination "current" current) "pageSize" pageSize
  [ .setTableState [("pagination", .obj newPagination), ("filters", filters)]
  , .onFilterChange filters
  , .onPageChange current pageSize
  , .onDriverChange pagination filters ]

/-! ## Cell-edit data-source change (`renderGenerator` onChange) -/

/-- Modelled from the spec: `setValue` (imported from
`drip-table/src/drip-table/utils`, which is not among the provided source
files) writes the new value at the column's `dataIndex` path of a record,
creating nested objects along the path, per §4.3: the change handler
"re-projects the new value back into a cloned record".  On the clone the
in-place write becomes a functional update. -/
def setValueAt : Obj → List String → JSValue → Obj
  | o, [], _ => o
  | o, [k], v => objSet o k v
  | o, k :: k2 :: rest, v =>
    objSet o k (.obj (setValueAt (fieldsOf (getField o k)) (k2 :: rest) v))

/-- Projection along a path, mirroring `setValueAt`. -/
def getPathValue : Obj → List String → JSValue
  | _, [] => JSValue.undef
  | o, [k] => getField o k
  | o, k :: k2 :: rest => getPathValue (fieldsOf (getField o k)) (k2 :: rest)

/-- The cell-edit `onChange` of `renderGenerator`:
`const ds = [...props.dataSource]; const rec = { ...record };
 setValue(rec, schema.dataIndex, value); ds[index] = rec;
 props.onDataSourceChange?.(ds, tableInfo)` — the array handed to the
data-source-changed callback. -/
def handleCellEditChange (dataSource : List Obj) (record : Obj) (index : Nat)
    (dataIndex : List String) (value : JSValue) : List Obj :=
  dataSource.set index (setValueAt record dataIndex value)

theorem getField?_append (a b : Obj) (k : String) :
    getField? (a ++ b) k = (getField? b k).or (getField? a k) := by
  simp only [getField?, List.reverse_append, List.find?_append]
  cases b.reverse.find? (fun p => p.1 == k) <;>
    cases a.reverse.find? (fun p => p.1 == k) <;>
    simp [Option.or]

theorem getField?_map_replace (o : Obj) (k : String) (v : JSValue) :
    getField? (o.map (fun p => if p.1 = k then (k, v) else p)) k =
      if hasField o k then some v else none := by
  have hcomp : ((fun p : String × JSValue => p.1 == k) ∘
      (fun p : String × JSValue => if p.1 = k then (k, v) else p)) =
      fun p : String × JSValue => p.1 == k := by
    funext p
    simp only [Function.comp]
    by_cases h : p.1 = k <;> simp [h]
  rw [getField?, ← List.map_reverse, List.find?_map, hcomp]
  rcases hfind : o.reverse.find? (fun p => p.1 == k) with _ | q
  · have hh : hasField o k = false := by
      rw [hasField, getField?, hfind]; rfl
    rw [hfind]
    simp [hh]
  · have hh : hasField o k = true := by
      rw [hasField, getField?, hfind]; rfl
    have hq : ((fun p : String × JSValue => p.1 == k) q) = true :=
      List.find?_some (p := fun p : String × JSValue => p.1 == k) hfind
    have hk : q.1 = k := by simpa using hq
    rw [hfind]
    simp [hh, hk]

theorem getField?_map_replace_ne (o : Obj) (k : String) (v : JSValue) (f : String)
    (hne : f ≠ k) :
    getField? (o.map (fun p => if p.1 = k then (k, v) else p)) f = getField? o f := by
  have hcomp : ((fun p : String × JSValue => p.1 == f) ∘
      (fun p : String × JSValue => if p.1 = k then (k, v) else p)) =
      fun p : String × JSValue => p.1 == f := by
    funext p
    simp only [Function.comp]
    by_cases h : p.1 = k
    · have h1 : (k == f) = false := by
        simp only [beq_eq_false_iff_ne, ne_eq]
        exact fun h2 => hne h2.symm
      have h2 : (p.1 == f) = false := by rw [h]; exact h1
      simp [h, h1, h2]
    · simp [h]
  rw [getField?, ← List.map_reverse, List.find?_map, hcomp]
  rcases hfind : o.reverse.find? (fun p => p.1 == f) with _ | q
  · rw [hfind, getField?, hfind]
    rfl
  · have hq : ((fun p : String × JSValue => p.1 == f) q) = true :=
      List.find?_some (p := fun p : String × JSValue => p.1 == f) hfind
    have hqf : q.1 = f := by simpa using hq
    have hqk : ¬ q.1 = k := by rw [hqf]; exact hne
    rw [hfind, getField?, hfind]
    simp [hqk]

theorem getField?_objSet (o : Obj) (k : String) (v : JSValue) (f : String) :
    getField? (objSet o k v) f = if f = k then some v else getField? o f := by
  by_cases hf : f = k
  · subst hf
    by_cases h : hasField o f
    · simp [objSet, h, getField?_map_replace, if_pos rfl]
    · rw [objSet, if_neg h, getField?_append]
      have hk : (f == f) = true := by simp
      simp [getField?, hk]
  · by_cases h : hasField o k
    · simp [objSet, h, getField?_map_replace_ne o k v f hf, hf]
    · rw [objSet, if_neg h, getField?_append]
      have hk : (k == f) = false := by
        simp only [beq_eq_false_iff_ne, ne_eq]
        exact fun h2 => hf h2.symm
      simp [getField?, hk, hf]

theorem getField_objSet (o : Obj) (k : String) (v : JSValue) (f : String) :
    getField (objSet o k v) f = if f = k then v else getField o f := by
  simp only [getField, getField?_objSet]
  by_cases hf : f = k <;> simp [hf]

theorem hasField_objSet (o : Obj) (k : String) (v : JSValue) (f : String) :
    hasField (objSet o k v) f = (decide (f = k) || hasField o f) := by
  by_cases hf : f = k <;>
    simp [hasField, getField?_objSet, hf]

theorem getField?_objAssign (a b : Obj) (f : String) :
    getField? (objAssign a b) f = (getField? b f).or (getField? a f) := by
  induction b generalizing a with
  | nil => simp [objAssign, getField?]
  | cons p rest ih =>
    simp only [objAssign, List.foldl_cons] at *
    rw [ih (objSet a p.1 p.2)]
    have hcons : getField? (p :: rest) f =
        (getField? rest f).or (if p.1 == f then some p.2 else none) := by
      simp only [getField?, List.reverse_cons, List.find?_append]
      cases rest.reverse.find? (fun q => q.1 == f) with
      | none =>
        by_cases hp : p.1 == f <;> simp [Option.or, hp]
      | some q => simp [Option.or]
    rw [hcons, getField?_objSet]
    cases hrest : getField? rest f with
    | some w => simp [Option.or]
    | none =>
      by_cases hf : f = p.1
      · have : (p.1 == f) = true := by simp [hf]
        simp [Option.or, hf, this]
      · have : (p.1 == f) = false := by
          simp only [beq_eq_false_iff_ne, ne_eq]
          exact fun h2 => hf h2.symm
        simp [Option.or, hf, this]

theorem getField_objAssign (a b : Obj) (f : String) :
    getField (objAssign a b) f =
      if hasField b f then getField b f else getField a f := by
  simp only [getField, hasField, getField?_objAssign]
  cases h : getField? b f <;> simp [Option.or, h]

theorem hasField_objAssign (a b : Obj) (f : String) :
    hasField (objAssign a b) f = (hasField b f || hasField a f) := by
  simp only [hasField, getField?_objAssign]
  cases h : getField? b f <;> simp [Option.or, h]

theorem head?_dropWhile_false {α : Type} (p : α → Bool) (l : List α) (c : α)
    (h : (l.dropWhile p).head? = some c) : p c = false := by
  have h2 := List.head?_dropWhile_not p l
  rw [h] at h2
  exact h2

theorem dropWhile_eq_self_of_head {α : Type} (p : α → Bool) (l : List α)
    (h : ∀ c, l.head? = some c → p c = false) : l.dropWhile p = l := by
  cases l with
  | nil => rfl
  | cons a t =>
    have ha := h a rfl
    simp [List.dropWhile_cons, ha]

theorem getLast?_dropWhile {α : Type} (p : α → Bool) (l : List α)
    (h : l.dropWhile p ≠ []) : (l.dropWhile p).getLast? = l.getLast? := by
  conv_rhs => rw [← List.takeWhile_append_dropWhile (p := p) (l := l)]
  rw [List.getLast?_append]
  cases hl : (l.dropWhile p).getLast? with
  | none =>
    exfalso
    exact h (by simpa using hl)
  | some c => simp [Option.or]

theorem jsTrimChars_getLast (cs : List Char) (c : Char)
    (h : (jsTrimChars cs).getLast? = some c) : jsWhitespace c = false := by
  rw [jsTrimChars, List.getLast?_reverse] at h
  exact head?_dropWhile_false _ _ _ h

theorem jsTrimChars_head (cs : List Char) (c : Char)
    (h : (jsTrimChars cs).head? = some c) : jsWhitespace c = false := by
  rw [jsTrimChars, List.head?_reverse] at h
  have hne : ((cs.dropWhile jsWhitespace).reverse).dropWhile jsWhitespace ≠ [] := by
    intro h0
    rw [h0] at h
    simp at h
  rw [getLast?_dropWhile _ _ hne, List.getLast?_reverse] at h
  exact head?_dropWhile_false _ _ _ h

theorem jsTrimChars_idem (cs : List Char) :
    jsTrimChars (jsTrimChars cs) = jsTrimChars cs := by
  have h1 : (jsTrimChars cs).dropWhile jsWhitespace = jsTrimChars cs :=
    dropWhile_eq_self_of_head _ _ (fun c hc => jsTrimChars_head cs c hc)
  have h2 : (jsTrimChars cs).reverse.dropWhile jsWhitespace = (jsTrimChars cs).reverse := by
    apply dropWhile_eq_self_of_head
    intro c hc
    rw [List.head?_reverse] at hc
    exact jsTrimChars_getLast cs c hc
  calc jsTrimChars (jsTrimChars cs)
      = (((jsTrimChars cs).dropWhile jsWhitespace).reverse.dropWhile jsWhitespace).reverse := rfl
    _ = ((jsTrimChars cs).reverse.dropWhile jsWhitespace).reverse := by rw [h1]
    _ = (jsTrimChars cs).reverse.reverse := by rw [h2]
    _ = jsTrimChars cs := List.reverse_reverse _

theorem jsTrim_idem (s : String) : jsTrim (jsTrim s) = jsTrim s :=
  congrArg String.mk (jsTrimChars_idem s.data)

theorem isDigitChar_not_ws (c : Char) (h : isDigitChar c = true) :
    jsWhitespace c = false := by
  simp only [isDigitChar, Bool.and_eq_true, decide_eq_true_eq] at h
  simp only [jsWhitespace, Bool.or_eq_false_iff, beq_eq_false_iff_ne, ne_eq,
    Bool.and_eq_false_iff, decide_eq_false_iff_not, not_le]
  omega

theorem data_append (s u : String) : (s ++ u).data = s.data ++ u.data := by
  cases s
  cases u
  rfl

theorem jsTrimChars_digits_px (t : List Char) (h : isDigitsRegexMatch t = true) :
    jsTrimChars (t ++ ['p', 'x']) = t ++ ['p', 'x'] := by
  simp only [isDigitsRegexMatch, Bool.and_eq_true, Bool.not_eq_eq_eq_not,
    Bool.not_true, List.all_eq_true] at h
  obtain ⟨hne, hall⟩ := h
  have hleft : (t ++ ['p', 'x']).dropWhile jsWhitespace = t ++ ['p', 'x'] := by
    apply dropWhile_eq_self_of_head
    intro c hc
    cases t with
    | nil => simp [List.isEmpty] at hne
    | cons a t2 =>
      simp only [List.cons_append, List.head?_cons, Option.some.injEq] at hc
      subst hc
      exact isDigitChar_not_ws a (hall a (by simp))
  have hright : (t ++ ['p', 'x']).reverse.dropWhile jsWhitespace = (t ++ ['p', 'x']).reverse := by
    apply dropWhile_eq_self_of_head
    intro c hc
    rw [List.head?_reverse] at hc
    have hx : (t ++ ['p', 'x']).getLast? = some 'x' := by
      rw [List.getLast?_append]
      rfl
    rw [hx] at hc
    cases hc
    decide
  rw [jsTrimChars, hleft, hright, List.reverse_reverse]

theorem isDigitsRegexMatch_px (t : List Char) :
    isDigitsRegexMatch (t ++ ['p', 'x']) = false := by
  have hpx : (['p', 'x'] : List Char).all isDigitChar = false := by decide
  simp [isDigitsRegexMatch, List.all_append, hpx]

theorem normalizeWidth_idem (w : String) :
    normalizeWidth (normalizeWidth w) = normalizeWidth w := by
  by_cases hd : isDigitsRegexMatch (jsTrim w).data = true
  · have h1 : normalizeWidth w = jsTrim w ++ "px" := by
      rw [normalizeWidth, if_pos hd]
    have hdata : (jsTrim w ++ "px").data = (jsTrim w).data ++ ['p', 'x'] :=
      data_append (jsTrim w) "px"
    have htrim : jsTrim (jsTrim w ++ "px") = jsTrim w ++ "px" := by
      have h2 : jsTrimChars ((jsTrim w ++ "px").data) = (jsTrim w ++ "px").data := by
        rw [hdata]
        exact jsTrimChars_digits_px _ hd
      calc jsTrim (jsTrim w ++ "px")
          = String.mk ((jsTrim w ++ "px").data) := congrArg String.mk h2
        _ = jsTrim w ++ "px" := rfl
    rw [h1, normalizeWidth, htrim, hdata, isDigitsRegexMatch_px]
    simp
  · have h0 : isDigitsRegexMatch (jsTrim w).data = false := by
      simpa using hd
    have h1 : normalizeWidth w = jsTrim w := by
      rw [normalizeWidth, h0]
      simp
    rw [h1, normalizeWidth, jsTrim_idem, h0]
    simp

/-- C6: width normalization appends `px` exactly when the trimmed
stringified width is all digits, passes any other (trimmed) string
through unchanged, and is idempotent: `"120" ↦ "120px"`,
`"120px" ↦ "120px"`, and normalizing twice equals normalizing once; it
is precisely the width computation of `columnGenerator`. -/
theorem claim_C6_width_normalization :
    normalizeWidth "120" = "120px" ∧
    normalizeWidth "120px" = "120px" ∧
    (∀ w : String, normalizeWidth w =
      (if isDigitsRegexMatch (jsTrim w).data then jsTrim w ++ "px" else jsTrim w)) ∧
    (∀ w : String, normalizeWidth (normalizeWidth w) = normalizeWidth w) ∧
    (∀ env e col, (columnGenerator env e col).width =
      normalizeWidth (jsToString (getField col "width"))) :=
  ⟨by decide, by decide, fun w => rfl, normalizeWidth_idem, fun env e col => rfl⟩

/-- C4: the state store's `setState` produces exactly the shallow merge of
the state and the patch (direct, or produced by an updater applied to the
state): fields named in the patch are overwritten wholesale, all other
top-level fields keep their value — in particular a nested object is
replaced, not deep-merged, as on the spec's pagination/filters example. -/
theorem claim_C4_state_shallow_merge :
    (∀ (s : Obj) (a : SetStateAction) (k : String),
      getField (useStateReducer s a) k =
        (if hasField (match a with | .patch p => p | .updater f => f s) k
         then getField (match a with | .patch p => p | .updater f => f s) k
         else getField s k)) ∧
    getField (useStateReducer
        [("pagination", .obj [("current", .num 1), ("pageSize", .num 10)]), ("filters", .obj [])]
        (.patch [("pagination", .obj [("current", .num 2), ("pageSize", .num 10)])]))
      "pagination" = .obj [("current", .num 2), ("pageSize", .num 10)] ∧
    getField (useStateReducer
        [("pagination", .obj [("current", .num 1), ("pageSize", .num 10)]), ("filters", .obj [])]
        (.patch [("pagination", .obj [("current", .num 2), ("pageSize", .num 10)])]))
      "filters" = .obj [] := by
  refine ⟨fun s a k => ?_, rfl, rfl⟩
  cases a with
  | patch p => simpa [useStateReducer] using getField_objAssign s p k
  | updater f => simpa [useStateReducer] using getField_objAssign s (f s) k

/-- C5: a row is marked expandable exactly when the host predicate accepts
it, or a subtable is configured and the record's value at the subtable's
`dataSourceKey` is an array of positive length; any non-array value there
(or an empty array) leaves the row unexpandable, with no error path. -/
theorem claim_C5_row_expandable :
    ∀ (custom : Option (Obj → Bool)) (subtable : Option Obj) (record : Obj),
      rowExpandable custom subtable record = true ↔
        ((∃ f, custom = some f ∧ f record = true) ∨
         (∃ st, subtable = some st ∧ ∃ ds,
           getField record (jsToString (getField st "dataSourceKey")) = .arr ds ∧
             0 < ds.length)) := by
  intro custom subtable record
  have hsub : (match subtable with
      | some st =>
        (match getField record (jsToString (getField st "dataSourceKey")) with
         | .arr ds => decide (0 < ds.length)
         | _ => false)
      | none => false) = true ↔
      (∃ st, subtable = some st ∧ ∃ ds,
        getField record (jsToString (getField st "dataSourceKey")) = .arr ds ∧
          0 < ds.length) := by
    cases subtable with
    | none => simp
    | some st =>
      cases hds : getField record (jsToString (getField st "dataSourceKey")) <;>
        simp [hds]
  cases custom with
  | none =>
    rw [rowExpandable.eq_def]
    simpa using hsub
  | some f =>
    rw [rowExpandable.eq_def]
    by_cases hf : f record = true
    · simp [hf]
    · simp only [Bool.not_eq_true] at hf
      simp only [hf, Bool.false_eq_true, if_false]
      rw [hsub]
      constructor
      · exact fun h => Or.inr h
      · rintro (⟨g, hg, hgr⟩ | h)
        · cases hg
          rw [hf] at hgr
          cases hgr
        · exact h

/-- C7: the rendered dataset gives each record whose row-key field (the
schema's `rowKey`, defaulting to `"key"`) is undefined its positional
index as synthetic key, keeps an already-defined key unchanged, and
leaves every other field of the record untouched; on the spec's example
dataset the synthetic keys are 0 and 1. -/
theorem claim_C7_row_key_assignment :
    (∀ (rowKey : JSValue) (ds : List Obj) (i : Nat) (item : Obj),
      ds[i]? = some item →
      ∃ item2, (renderedDataSource rowKey ds)[i]? = some item2 ∧
        getField item2 (resolvedRowKey rowKey) =
          (if isUndef (getField item (resolvedRowKey rowKey)) then .num (Int.ofNat i)
           else getField item (resolvedRowKey rowKey)) ∧
        (∀ f, f ≠ resolvedRowKey rowKey → getField? item2 f = getField? item f)) ∧
    renderedDataSource JSValue.undef [[("name", .str "a")], [("name", .str "b")]] =
      [[("name", .str "a"), ("key", .num 0)], [("name", .str "b"), ("key", .num 1)]] := by
  constructor
  · intro rowKey ds i item hitem
    refine ⟨objSet item (resolvedRowKey rowKey)
      (if isUndef (getField item (resolvedRowKey rowKey)) then .num (Int.ofNat i)
       else getField item (resolvedRowKey rowKey)), ?_, ?_, ?_⟩
    · rw [renderedDataSource, List.getElem?_map, List.getElem?_enum, hitem]
      rfl
    · rw [getField_objSet]
      simp
    · intro f hf
      rw [getField?_objSet]
      simp [hf]
  · rfl

/-- Closed instance of the C7 row-key theorem at the spec's example
dataset: the second record has no `key` field, so it receives its index 1. -/
theorem claim_C7_row_key_assignment_witness :
    (([[("name", JSValue.str "a")], [("name", JSValue.str "b")]] : List Obj)[1]? =
      some [("name", JSValue.str "b")]) ∧
    ∃ item2,
      (renderedDataSource JSValue.undef [[("name", JSValue.str "a")], [("name", JSValue.str "b")]])[1]? =
        some item2 ∧
      getField item2 (resolvedRowKey JSValue.undef) =
        (if isUndef (getField [("name", JSValue.str "b")] (resolvedRowKey JSValue.undef))
         then .num (Int.ofNat 1)
         else getField [("name", JSValue.str "b")] (resolvedRowKey JSValue.undef)) ∧
      (∀ f, f ≠ resolvedRowKey JSValue.undef →
        getField? item2 f = getField? [("name", JSValue.str "b")] f) :=
  ⟨rfl, claim_C7_row_key_assignment.1 JSValue.undef
    [[("name", JSValue.str "a")], [("name", JSValue.str "b")]] 1
    [("name", JSValue.str "b")] rfl⟩

theorem getField?_pair2_last (k1 k2 : String) (v1 v2 : JSValue) :
    getField? [(k1, v1), (k2, v2)] k2 = some v2 := by
  simp [getField?]

theorem getField?_pair2_head (k1 k2 : String) (v1 v2 : JSValue) (h : k2 ≠ k1) :
    getField? [(k1, v1), (k2, v2)] k1 = some v1 := by
  have h2 : (k2 == k1) = false := by
    simp only [beq_eq_false_iff_ne, ne_eq]
    exact h
  simp [getField?, h2]

theorem getField?_pair2_none (k1 k2 f : String) (v1 v2 : JSValue)
    (h1 : f ≠ k1) (h2 : f ≠ k2) :
    getField? [(k1, v1), (k2, v2)] f = none := by
  have g1 : (k1 == f) = false := by
    simp only [beq_eq_false_iff_ne, ne_eq]
    exact fun h => h1 h.symm
  have g2 : (k2 == f) = false := by
    simp only [beq_eq_false_iff_ne, ne_eq]
    exact fun h => h2 h.symm
  simp [getField?, g1, g2]

theorem setStatePatch_merge (s : Obj) (pag fl : JSValue) :
    getField (useStateReducer s (.patch [("pagination", pag), ("filters", fl)])) "filters" = fl ∧
    getField (useStateReducer s (.patch [("pagination", pag), ("filters", fl)])) "pagination" = pag ∧
    (∀ k, k ≠ "pagination" → k ≠ "filters" →
      getField? (useStateReducer s (.patch [("pagination", pag), ("filters", fl)])) k =
        getField? s k) := by
  have hred : useStateReducer s (.patch [("pagination", pag), ("filters", fl)]) =
      objAssign s [("pagination", pag), ("filters", fl)] := rfl
  refine ⟨?_, ?_, ?_⟩
  · rw [hred, getField_objAssign]
    have h1 : hasField [("pagination", pag), ("filters", fl)] "filters" = true := by
      simp [hasField, getField?_pair2_last]
    rw [if_pos h1, getField, getField?_pair2_last]
    rfl
  · rw [hred, getField_objAssign]
    have hp : getField? [("pagination", pag), ("filters", fl)] "pagination" = some pag :=
      getField?_pair2_head "pagination" "filters" pag fl (by decide)
    have h1 : hasField [("pagination", pag), ("filters", fl)] "pagination" = true := by
      simp [hasField, hp]
    rw [if_pos h1, getField, hp]
    rfl
  · intro k hkp hkf
    rw [hred, getField?_objAssign, getField?_pair2_none _ _ _ _ _ hkp hkf]
    rfl

/-- C8: on a pagination/filter change the handler first issues the state
update — the new current page and page size merged into the held
pagination object (all its other fields kept), the filters overwritten
wholesale — and only then fires the host callbacks in the fixed order
filter-changed, page-changed, combined-change. -/
theorem claim_C8_change_state_then_callbacks :
    ∀ (s p : Obj) (fl : JSValue),
      ∃ (newPag : Obj) (cur ps : JSValue),
        handleTableChange s p fl =
          [TableChangeStep.setTableState [("pagination", .obj newPag), ("filters", fl)],
           TableChangeStep.onFilterChange fl,
           TableChangeStep.onPageChange cur ps,
           TableChangeStep.onDriverChange p fl] ∧
        cur = nullishCoalesce (getField p "current")
          (getField (fieldsOf (getField s "pagination")) "current") ∧
        ps = nullishCoalesce (getField p "pageSize")
          (getField (fieldsOf (getField s "pagination")) "pageSize") ∧
        getField newPag "current" = cur ∧
        getField newPag "pageSize" = ps ∧
        (∀ k2, k2 ≠ "current" → k2 ≠ "pageSize" →
          getField? newPag k2 = getField? (fieldsOf (getField s "pagination")) k2) ∧
        getField (useStateReducer s
          (.patch [("pagination", .obj newPag), ("filters", fl)])) "filters" = fl ∧
        getField (useStateReducer s
          (.patch [("pagination", .obj newPag), ("filters", fl)])) "pagination" = .obj newPag ∧
        (∀ k, k ≠ "pagination" → k ≠ "filters" →
          getField? (useStateReducer s
            (.patch [("pagination", .obj newPag), ("filters", fl)])) k = getField? s k) := by
  intro s p fl
  obtain ⟨hflt, hpag, hframe⟩ := setStatePatch_merge s
    (.obj (objSet
      (objSet (fieldsOf (getField s "pagination")) "current"
        (nullishCoalesce (getField p "current")
          (getField (fieldsOf (getField s "pagination")) "current")))
      "pageSize"
      (nullishCoalesce (getField p "pageSize")
        (getField (fieldsOf (getField s "pagination")) "pageSize")))) fl
  refine ⟨_, _, _, rfl, rfl, rfl, ?_, ?_, ?_, hflt, hpag, hframe⟩
  · rw [getField_objSet, getField_objSet]
    simp
  · rw [getField_objSet]
    simp
  · intro k2 h2c h2p
    rw [getField?_objSet, getField?_objSet]
    simp [h2c, h2p]

theorem getField?_foldl_objAssign (l : List Obj) (a : Obj) (f : String) :
    getField? (l.foldl objAssign a) f =
      match l.reverse.find? (fun o => hasField o f) with
      | some o => getField? o f
      | none => getField? a f := by
  induction l generalizing a with
  | nil => simp
  | cons o rest ih =>
    rw [List.foldl_cons, ih (objAssign a o), List.reverse_cons, List.find?_append]
    cases hfind : rest.reverse.find? (fun o2 => hasField o2 f) with
    | some q => simp [Option.or]
    | none =>
      by_cases hh : hasField o f
      · obtain ⟨v, hv⟩ := Option.isSome_iff_exists.mp hh
        simp [Option.or, hh, getField?_objAssign, hv]
      · have hh2 : getField? o f = none := by
          cases h2 : getField? o f with
          | none => rfl
          | some w => exact absurd (by simp [hasField, h2]) hh
        simp [Option.or, hh, getField?_objAssign, hh2]

theorem getField_base_subtable_default (f : String) :
    getField (objAssign [] DEFAULT_SUBTABLE_PROPS) f = JSValue.undef := by
  have hred : objAssign [] DEFAULT_SUBTABLE_PROPS =
      [("defaultExpandAllRows", JSValue.undef), ("defaultExpandedRowKeys", JSValue.undef)] := rfl
  rw [hred]
  by_cases h1 : f = "defaultExpandAllRows"
  · subst h1
    rfl
  · by_cases h2 : f = "defaultExpandedRowKeys"
    · subst h2
      rfl
    · rw [getField, getField?_pair2_none _ _ _ _ _ h1 h2]
      rfl

/-- C1: for every row record and rule list, the effective subtable
properties equal, field by field, the shallow merge of the matching
rules' properties in the order default-matched, id-matched,
record-key-matched (later rules overriding earlier ones): each field is
the last matching rule's binding of it, `undefined` when no matching rule
binds it; on the spec's example, a key-matched red beats an id-matched
blue, which beats the default grey for the matching row, while the row
with the other key gets blue. -/
theorem claim_C1_subtable_override_precedence :
    (∀ (rules : List SubtableRule) (tableId recordKey : JSValue) (f : String),
      getField (resolveSubtableProps (some rules) tableId recordKey) f =
        specEffectiveSubtableProp rules tableId recordKey f) ∧
    getField (resolveSubtableProps (some
        [⟨JSValue.undef, none, .bool true, [("color", .str "grey")]⟩,
         ⟨.str "T1", none, JSValue.undef, [("color", .str "blue")]⟩,
         ⟨JSValue.undef, some [.num 5], JSValue.undef, [("color", .str "red")]⟩])
      (.str "T1") (.num 5)) "color" = .str "red" ∧
    getField (resolveSubtableProps (some
        [⟨JSValue.undef, none, .bool true, [("color", .str "grey")]⟩,
         ⟨.str "T1", none, JSValue.undef, [("color", .str "blue")]⟩,
         ⟨JSValue.undef, some [.num 5], JSValue.undef, [("color", .str "red")]⟩])
      (.str "T1") (.num 6)) "color" = .str "blue" := by
  refine ⟨?_, rfl, rfl⟩
  intro rules tableId recordKey f
  rw [resolveSubtableProps, getField, getField?_objAssign]
  have hfold : ((matchedSubtableRules rules tableId recordKey).foldl
      (fun acc sp => objAssign acc sp.properties) []) =
      (((matchedSubtableRules rules tableId recordKey).map (fun sp => sp.properties)).foldl
        objAssign []) := by
    rw [List.foldl_map]
  rw [hfold, getField?_foldl_objAssign, ← List.map_reverse, List.find?_map]
  have hcomp : ((fun o : Obj => hasField o f) ∘ (fun sp : SubtableRule => sp.properties)) =
      fun sp : SubtableRule => hasField sp.properties f := rfl
  rw [hcomp]
  cases hfind : (matchedSubtableRules rules tableId recordKey).reverse.find?
      (fun sp => hasField sp.properties f) with
  | some sp =>
    have hsp : hasField sp.properties f = true :=
      List.find?_some (p := fun sp : SubtableRule => hasField sp.properties f) hfind
    obtain ⟨v, hv⟩ := Option.isSome_iff_exists.mp hsp
    rw [specEffectiveSubtableProp.eq_def, hfind]
    show ((getField? sp.properties f).or
      (getField? (objAssign [] DEFAULT_SUBTABLE_PROPS) f)).getD JSValue.undef =
        getField sp.properties f
    rw [hv, getField, hv]
    rfl
  | none =>
    rw [specEffectiveSubtableProp.eq_def, hfind]
    exact getField_base_subtable_default f

/-- C3: a column whose component identifier resolves to neither a
built-in renderer nor a registry entry gets a total render function that
returns the inline `Unknown column component` placeholder carrying the
identifier verbatim (no throwing branch is reached), and column
generation is pointwise, so every other column of the schema renders
exactly as it would alone. -/
theorem claim_C3_unknown_component_placeholder :
    (∀ (env : ResolveEnv) (schema : Obj) (comp : String) (v : JSValue) (r : Obj) (i : Nat),
      getField schema "component" = .str comp →
      env.builtins.contains comp = false →
      registryResolves env comp = false →
      renderGenerator env schema v r i =
        .unknownPlaceholder ("Unknown column component: " ++ comp)) ∧
    (∀ (env : ResolveEnv) (e : JSValue) (cols : List Obj) (j : Nat),
      (cols.map (columnGenerator env e))[j]? = (cols[j]?).map (columnGenerator env e)) := by
  constructor
  · intro env schema comp v r i h1 h2 h3
    have hhas : hasField schema "component" = true := by
      rw [hasField]
      cases hq : getField? schema "component" with
      | none =>
        rw [getField, hq] at h1
        cases h1
      | some w => rfl
    rw [registryResolves] at h3
    have h2m : ¬ comp ∈ env.builtins := by
      simpa using h2
    rcases hsp : jsSplitColons comp with _ | ⟨lib, _ | ⟨nm, rest⟩⟩
    · simp [renderGenerator, hhas, h1, h2m, hsp, jsToString]
    · simp [renderGenerator, hhas, h1, h2m, hsp, jsToString]
    · rw [hsp] at h3
      by_cases hln : ((lib != "") && (nm != "")) = true
      · have hlook : lookupRegistry env.registry lib nm = false := by
          rcases Bool.and_eq_true _ _ |>.mp hln with ⟨ha, hb⟩
          simp only [Bool.and_assoc] at h3
          rcases Bool.and_eq_false_iff.mp h3 with h | h
          · rw [h] at ha
            cases ha
          · rcases Bool.and_eq_false_iff.mp h with h4 | h4
            · rw [h4] at hb
              cases hb
            · exact h4
        rcases Bool.and_eq_true _ _ |>.mp hln with ⟨ha, hb⟩
        have ha2 : ¬ lib = "" := by simpa using ha
        have hb2 : ¬ nm = "" := by simpa using hb
        simp [renderGenerator, hhas, h1, h2m, hsp, ha2, hb2, hlook, jsToString]
      · have hln2 : lib = "" ∨ nm = "" := by
          rcases Bool.and_eq_false_iff.mp (Bool.not_eq_true _ |>.mp hln) with h | h
          · exact Or.inl (by simpa using h)
          · exact Or.inr (by simpa using h)
        rcases hln2 with h | h <;>
          simp [renderGenerator, hhas, h1, h2m, hsp, h, jsToString]
  · intro env e cols j
    exact List.getElem?_map (columnGenerator env e) cols j

/-- Closed instance of the C3 placeholder theorem: `component: "nope"`
with built-ins `["text"]` and registry `{lib: {a}}` renders the literal
placeholder naming `nope`. -/
theorem claim_C3_unknown_component_placeholder_witness :
    getField [("component", JSValue.str "nope")] "component" = .str "nope" ∧
    (ResolveEnv.mk ["text"] [("lib", ["a"])] true (fun _ => none)).builtins.contains "nope" = false ∧
    registryResolves (ResolveEnv.mk ["text"] [("lib", ["a"])] true (fun _ => none)) "nope" = false ∧
    renderGenerator (ResolveEnv.mk ["text"] [("lib", ["a"])] true (fun _ => none))
        [("component", JSValue.str "nope")] (.str "x") [] 0 =
      .unknownPlaceholder ("Unknown column component: " ++ "nope") :=
  ⟨rfl, by decide, by decide,
    claim_C3_unknown_component_placeholder.1
      (ResolveEnv.mk ["text"] [("lib", ["a"])] true (fun _ => none))
      [("component", JSValue.str "nope")] "nope" (.str "x") [] 0 rfl (by decide) (by decide)⟩

/-- C10: the value handed to a resolved renderer is
`value ?? schema.defaultValue`: the projected value unless it is `null`
or `undefined`, in which case the column's `defaultValue` is substituted
— so a null projected value never reaches the renderer (only the
defaultValue does). -/
theorem claim_C10_nullish_cell_value :
    ∀ (env : ResolveEnv) (schema : Obj) (v : JSValue) (r : Obj) (i : Nat),
      hasField schema "component" = true →
      env.builtins.contains (jsToString (getField schema "component")) = true →
      (env.ajvOff = true ∨ env.validateColumn schema = none) →
      renderGenerator env schema v r i =
        .builtinCell (jsToString (getField schema "component"))
          (if isNullish v then getField schema "defaultValue" else v) r i ∧
      (isNullish v = true →
        cellValue (renderGenerator env schema v r i) =
          some (getField schema "defaultValue")) := by
  intro env schema v r i hhas hbuiltin hval
  have hvr : ∀ mk : JSValue → Obj → Nat → CellRender, validatedRender env schema mk = mk := by
    intro mk
    rw [validatedRender]
    rcases hval with h | h
    · rw [if_pos h]
    · by_cases ha : env.ajvOff = true
      · rw [if_pos ha]
      · simp only [Bool.not_eq_true] at ha
        rw [ha]
        simp [h]
  have hmain : renderGenerator env schema v r i =
      .builtinCell (jsToString (getField schema "component"))
        (if isNullish v then getField schema "defaultValue" else v) r i := by
    have hbm : jsToString (getField schema "component") ∈ env.builtins := by
      simpa using hbuiltin
    simp [renderGenerator, hhas, hbm, hvr, nullishCoalesce]
  refine ⟨hmain, fun hn => ?_⟩
  rw [hmain, cellValue, if_pos hn]

/-- Closed instance of the C10 theorem: a `null` projected value for a
resolved `text` column is replaced by the column's defaultValue. -/
theorem claim_C10_nullish_cell_value_witness :
    hasField [("component", JSValue.str "text"), ("defaultValue", JSValue.str "dv")] "component" = true ∧
    (ResolveEnv.mk ["text"] [] true (fun _ => none)).builtins.contains
      (jsToString (getField [("component", JSValue.str "text"), ("defaultValue", JSValue.str "dv")] "component")) = true ∧
    (renderGenerator (ResolveEnv.mk ["text"] [] true (fun _ => none))
        [("component", JSValue.str "text"), ("defaultValue", JSValue.str "dv")] .null [] 0 =
      .builtinCell (jsToString (getField [("component", JSValue.str "text"), ("defaultValue", JSValue.str "dv")] "component"))
        (if isNullish .null then getField [("component", JSValue.str "text"), ("defaultValue", JSValue.str "dv")] "defaultValue"
         else .null) [] 0) ∧
    (isNullish JSValue.null = true →
      cellValue (renderGenerator (ResolveEnv.mk ["text"] [] true (fun _ => none))
          [("component", JSValue.str "text"), ("defaultValue", JSValue.str "dv")] .null [] 0) =
        some (getField [("component", JSValue.str "text"), ("defaultValue", JSValue.str "dv")] "defaultValue")) := by
  have h := claim_C10_nullish_cell_value (ResolveEnv.mk ["text"] [] true (fun _ => none))
    [("component", JSValue.str "text"), ("defaultValue", JSValue.str "dv")] .null [] 0
    (by decide) (by decide) (Or.inl rfl)
  exact ⟨by decide, by decide, h.1, h.2⟩

theorem find?_filter_keys (P : String → Bool) (f : String) (hf : P f = true) :
    ∀ (l : List (String × JSValue)),
      (l.filter (fun p => P p.1)).find? (fun p => p.1 == f) =
        l.find? (fun p => p.1 == f) := by
  intro l
  induction l with
  | nil => rfl
  | cons q rest ih =>
    by_cases hq : (q.1 == f) = true
    · have hqf : q.1 = f := by simpa using hq
      have hP : P q.1 = true := by rw [hqf]; exact hf
      rw [List.filter_cons_of_pos (by simpa using hP)]
      simp [List.find?_cons, hq]
    · have hq2 : (q.1 == f) = false := by simpa using hq
      by_cases hPq : P q.1 = true
      · rw [List.filter_cons_of_pos (by simpa using hPq)]
        simp [List.find?_cons, hq2, ih]
      · rw [List.filter_cons_of_neg (by simpa using hPq), ih]
        simp [List.find?_cons, hq2]

theorem getField?_filter_keys (column : Obj) (P : String → Bool) (f : String)
    (hf : P f = true) :
    getField? (column.filter (fun p => P p.1)) f = getField? column f := by
  rw [getField?, getField?, ← List.filter_reverse, find?_filter_keys P f hf]

theorem getField?_filter_keys_none (column : Obj) (P : String → Bool) (f : String)
    (hf : P f = false) :
    getField? (column.filter (fun p => P p.1)) f = none := by
  rw [getField?]
  have h1 : (column.filter (fun p => P p.1)).reverse.find? (fun p => p.1 == f) = none := by
    rw [List.find?_eq_none]
    intro x hx
    rw [List.mem_reverse, List.mem_filter] at hx
    intro hxf
    have hxf2 : x.1 = f := by simpa using hxf
    rw [hxf2, hf] at hx
    exact Bool.false_ne_true hx.2
  rw [h1]
  rfl

theorem countWarningsForKey_append (a b : List DeprecationWarning) (k : JSValue) :
    countWarningsForKey (a ++ b) k = countWarningsForKey a k + countWarningsForKey b k := by
  rw [countWarningsForKey, countWarningsForKey, countWarningsForKey,
    List.filter_append, List.length_append]

theorem warningsAfterRenders_count (n : Nat) (columns : List Obj) (k : JSValue) :
    countWarningsForKey (warningsAfterRenders n columns) k =
      n * countWarningsForKey (renderWarnings columns) k := by
  induction n with
  | zero => simp [warningsAfterRenders, countWarningsForKey]
  | succ m ih =>
    rw [warningsAfterRenders, List.replicate_succ, List.flatten_cons,
      countWarningsForKey_append]
    rw [warningsAfterRenders] at ih
    rw [ih]
    ring

/-- C2, counterexample: a single column keyed `c1` carrying both
deprecated fields, rendered twice, accumulates four deprecation warnings
for that key — two per render (one per deprecated field), not the
claimed exactly one. -/
theorem claim_C2_deprecated_warning_counterexample :
    countWarningsForKey (warningsAfterRenders 2
      [[("key", JSValue.str "c1"), ("ui:type", JSValue.str "text"),
        ("ui:props", JSValue.obj [("fontSize", JSValue.str "12")])]])
      (JSValue.str "c1") = 4 ∧
    countWarningsForKey (renderWarnings
      [[("key", JSValue.str "c1"), ("ui:type", JSValue.str "text"),
        ("ui:props", JSValue.obj [("fontSize", JSValue.str "12")])]])
      (JSValue.str "c1") = 2 ∧
    (4 : Nat) ≠ 1 ∧ (2 : Nat) ≠ 1 :=
  ⟨rfl, rfl, by decide, by decide⟩

/-- C2, amended: when the schema trigger fires every column is rewritten
before column generation — `component` becomes `ui:type || component`,
`options` becomes `ui:props || options || undefined`, the two deprecated
keys are removed and every other field is kept — and a deprecation
warning is recorded once per deprecated field present on a column on
EVERY render (the source deduplicates nothing across renders); the spec's
example column rewrites exactly as stated. -/
theorem claim_C2_deprecated_rewrite_amended :
    (∀ (env : ResolveEnv) (e : JSValue) (keys : List JSValue) (columns : List Obj),
      dripTableColumns env e keys columns =
        generateColumns env e keys (rewriteSchemaColumns columns)) ∧
    (∀ columns, schemaUsesDeprecated columns = true →
      rewriteSchemaColumns columns = columns.map rewriteColumn) ∧
    (∀ column, isDeprecatedColumn column = true →
      getField (rewriteColumn column) "component" =
        jsOr (getField column "ui:type") (getField column "component") ∧
      getField (rewriteColumn column) "options" =
        jsOr (getField column "ui:props") (jsOr (getField column "options") JSValue.undef) ∧
      (∀ f, f ≠ "ui:type" → f ≠ "ui:props" → f ≠ "component" → f ≠ "options" →
        getField? (rewriteColumn column) f = getField? column f) ∧
      hasField (rewriteColumn column) "ui:type" = false ∧
      hasField (rewriteColumn column) "ui:props" = false) ∧
    (∀ n columns k, countWarningsForKey (warningsAfterRenders n columns) k =
      n * countWarningsForKey (renderWarnings columns) k) ∧
    rewriteColumn [("key", JSValue.str "c1"), ("ui:type", JSValue.str "text"),
        ("ui:props", JSValue.obj [("fontSize", JSValue.str "12")])] =
      [("key", JSValue.str "c1"), ("options", JSValue.obj [("fontSize", JSValue.str "12")]),
        ("component", JSValue.str "text")] := by
  refine ⟨fun env e keys columns => rfl, fun columns h => ?_, fun column h => ?_,
    warningsAfterRenders_count, rfl⟩
  · rw [rewriteSchemaColumns, if_pos h]
  · rw [rewriteColumn, if_pos h]
    refine ⟨?_, ?_, ?_, ?_, ?_⟩
    · rw [getField_objSet]
      simp
    · rw [getField_objSet, getField_objSet]
      simp
    · intro f h1 h2 h3 h4
      rw [getField?_objSet, getField?_objSet]
      rw [if_neg h3, if_neg h4]
      exact getField?_filter_keys column (fun x => !(x == "ui:type" || x == "ui:props")) f
        (by simp [h1, h2])
    · rw [hasField_objSet, hasField_objSet]
      have hnone : getField? (column.filter
          (fun p => !(p.1 == "ui:type" || p.1 == "ui:props"))) "ui:type" = none :=
        getField?_filter_keys_none column (fun x => !(x == "ui:type" || x == "ui:props"))
          "ui:type" (by simp)
      have h2 : hasField (column.filter
          (fun p => !(p.1 == "ui:type" || p.1 == "ui:props"))) "ui:type" = false := by
        rw [hasField, hnone]
        rfl
      rw [h2]
      decide
    · rw [hasField_objSet, hasField_objSet]
      have hnone : getField? (column.filter
          (fun p => !(p.1 == "ui:type" || p.1 == "ui:props"))) "ui:props" = none :=
        getField?_filter_keys_none column (fun x => !(x == "ui:type" || x == "ui:props"))
          "ui:props" (by simp)
      have h2 : hasField (column.filter
          (fun p => !(p.1 == "ui:type" || p.1 == "ui:props"))) "ui:props" = false := by
        rw [hasField, hnone]
        rfl
      rw [h2]
      decide

/-- Closed instance of the amended C2 theorem at the spec's example
column: the schema one-column trigger fires, the rewrite produces the
stated `component`/`options` fields and drops the deprecated keys, and
the untouched `key` field survives the rewrite. -/
theorem claim_C2_deprecated_rewrite_amended_witness :
    schemaUsesDeprecated [[("key", JSValue.str "c1"), ("ui:type", JSValue.str "text"),
      ("ui:props", JSValue.obj [("fontSize", JSValue.str "12")])]] = true ∧
    rewriteSchemaColumns [[("key", JSValue.str "c1"), ("ui:type", JSValue.str "text"),
        ("ui:props", JSValue.obj [("fontSize", JSValue.str "12")])]] =
      [[("key", JSValue.str "c1"), ("ui:type", JSValue.str "text"),
        ("ui:props", JSValue.obj [("fontSize", JSValue.str "12")])]].map rewriteColumn ∧
    isDeprecatedColumn [("key", JSValue.str "c1"), ("ui:type", JSValue.str "text"),
      ("ui:props", JSValue.obj [("fontSize", JSValue.str "12")])] = true ∧
    getField? (rewriteColumn [("key", JSValue.str "c1"), ("ui:type", JSValue.str "text"),
        ("ui:props", JSValue.obj [("fontSize", JSValue.str "12")])]) "key" =
      getField? [("key", JSValue.str "c1"), ("ui:type", JSValue.str "text"),
        ("ui:props", JSValue.obj [("fontSize", JSValue.str "12")])] "key" := by
  refine ⟨by decide, claim_C2_deprecated_rewrite_amended.2.1 _ (by decide), by decide, ?_⟩
  exact (claim_C2_deprecated_rewrite_amended.2.2.1 _ (by decide)).2.2.1 "key"
    (by decide) (by decide) (by decide) (by decide)

theorem getPathValue_setValueAt (p : List String) (v : JSValue) (h : p ≠ []) :
    ∀ (o : Obj), getPathValue (setValueAt o p v) p = v := by
  induction p with
  | nil => exact absurd rfl h
  | cons k rest ih =>
    intro o
    cases rest with
    | nil =>
      rw [setValueAt, getPathValue, getField_objSet]
      simp
    | cons k2 r2 =>
      rw [setValueAt, getPathValue, getField_objSet]
      simp only [if_pos rfl]
      exact ih (by simp) (fieldsOf (getField o k))

theorem setValueAt_frame (o : Obj) (k : String) (rest : List String) (v : JSValue)
    (f : String) (hf : f ≠ k) :
    getField? (setValueAt o (k :: rest) v) f = getField? o f := by
  cases rest with
  | nil =>
    rw [setValueAt, getField?_objSet, if_neg hf]
  | cons k2 r2 =>
    rw [setValueAt, getField?_objSet, if_neg hf]

/-- C9: a cell-edit change reports a NEW array: every index other than the
edited one holds the original record, the edited index holds a new record
equal to the edited row except that the column's `dataIndex` path now
holds the new value (the value is readable back at the path, and every
top-level field off the path is unchanged); the embedding is purely
functional, so the host's original array and row are never mutated. -/
theorem claim_C9_cell_edit_immutable_update :
    ∀ (ds : List Obj) (record : Obj) (i : Nat) (k : String) (rest : List String) (v : JSValue),
      i < ds.length →
      (handleCellEditChange ds record i (k :: rest) v).length = ds.length ∧
      (∀ j, j ≠ i → (handleCellEditChange ds record i (k :: rest) v)[j]? = ds[j]?) ∧
      (handleCellEditChange ds record i (k :: rest) v)[i]? =
        some (setValueAt record (k :: rest) v) ∧
      getPathValue (setValueAt record (k :: rest) v) (k :: rest) = v ∧
      (∀ f, f ≠ k → getField? (setValueAt record (k :: rest) v) f = getField? record f) := by
  intro ds record i k rest v hi
  refine ⟨by rw [handleCellEditChange, List.length_set], ?_, ?_,
    getPathValue_setValueAt (k :: rest) v (by simp) record,
    fun f hf => setValueAt_frame record k rest v f hf⟩
  · intro j hj
    rw [handleCellEditChange, List.getElem?_set_ne (Ne.symm hj)]
  · rw [handleCellEditChange, List.getElem?_set_self hi]

/-- Closed instance of the C9 theorem: editing row 1 of a two-row dataset
at field `name` leaves row 0 untouched and rewrites only `name` in the
reported new row. -/
theorem claim_C9_cell_edit_immutable_update_witness :
    ((1 : Nat) < ([[("name", JSValue.str "a")], [("name", JSValue.str "b")]] : List Obj).length) ∧
    ((handleCellEditChange [[("name", JSValue.str "a")], [("name", JSValue.str "b")]]
        [("name", JSValue.str "b")] 1 ["name"] (.str "c")).length = 2 ∧
      (∀ j, j ≠ 1 →
        (handleCellEditChange [[("name", JSValue.str "a")], [("name", JSValue.str "b")]]
          [("name", JSValue.str "b")] 1 ["name"] (.str "c"))[j]? =
          ([[("name", JSValue.str "a")], [("name", JSValue.str "b")]] : List Obj)[j]?) ∧
      (handleCellEditChange [[("name", JSValue.str "a")], [("name", JSValue.str "b")]]
          [("name", JSValue.str "b")] 1 ["name"] (.str "c"))[1]? =
        some (setValueAt [("name", JSValue.str "b")] ["name"] (.str "c")) ∧
      getPathValue (setValueAt [("name", JSValue.str "b")] ["name"] (.str "c")) ["name"] =
        .str "c" ∧
      (∀ f, f ≠ "name" →
        getField? (setValueAt [("name", JSValue.str "b")] ["name"] (.str "c")) f =
          getField? [("name", JSValue.str "b")] f)) :=
  ⟨by decide, claim_C9_cell_edit_immutable_update
    [[("name", JSValue.str "a")], [("name", JSValue.str "b")]]
    [("name", JSValue.str "b")] 1 "name" [] (.str "c") (by decide)⟩

/-- Closed instance of the C8 theorem: a page change to 2 with empty
filters against a held state of page 1 / size 10 produces the setState
step first and the three callbacks in the fixed order. -/
theorem claim_C8_change_state_then_callbacks_witness :
    ∃ (newPag : Obj) (cur ps : JSValue),
      handleTableChange
          [("pagination", JSValue.obj [("current", JSValue.num 1), ("pageSize", JSValue.num 10)])]
          [("current", JSValue.num 2)] (JSValue.obj []) =
        [TableChangeStep.setTableState [("pagination", .obj newPag), ("filters", JSValue.obj [])],
         TableChangeStep.onFilterChange (JSValue.obj []),
         TableChangeStep.onPageChange cur ps,
         TableChangeStep.onDriverChange [("current", JSValue.num 2)] (JSValue.obj [])] ∧
      cur = nullishCoalesce (getField [("current", JSValue.num 2)] "current")
        (getField (fieldsOf (getField
          [("pagination", JSValue.obj [("current", JSValue.num 1), ("pageSize", JSValue.num 10)])]
          "pagination")) "current") ∧
      ps = nullishCoalesce (getField [("current", JSValue.num 2)] "pageSize")
        (getField (fieldsOf (getField
          [("pagination", JSValue.obj [("current", JSValue.num 1), ("pageSize", JSValue.num 10)])]
          "pagination")) "pageSize") ∧
      getField newPag "current" = cur ∧
      getField newPag "pageSize" = ps ∧
      (∀ k2, k2 ≠ "current" → k2 ≠ "pageSize" →
        getField? newPag k2 = getField? (fieldsOf (getField
          [("pagination", JSValue.obj [("current", JSValue.num 1), ("pageSize", JSValue.num 10)])]
          "pagination")) k2) ∧
      getField (useStateReducer
        [("pagination", JSValue.obj [("current", JSValue.num 1), ("pageSize", JSValue.num 10)])]
        (.patch [("pagination", .obj newPag), ("filters", JSValue.obj [])])) "filters" =
        JSValue.obj [] ∧
      getField (useStateReducer
        [("pagination", JSValue.obj [("current", JSValue.num 1), ("pageSize", JSValue.num 10)])]
        (.patch [("pagination", .obj newPag), ("filters", JSValue.obj [])])) "pagination" =
        .obj newPag ∧
      (∀ k, k ≠ "pagination" → k ≠ "filters" →
        getField? (useStateReducer
          [("pagination", JSValue.obj [("current", JSValue.num 1), ("pageSize", JSValue.num 10)])]
          (.patch [("pagination", .obj newPag), ("filters", JSValue.obj [])])) k =
          getField?
            [("pagination", JSValue.obj [("current", JSValue.num 1), ("pageSize", JSValue.num 10)])]
            k) :=
  claim_C8_change_state_then_callbacks
    [("pagination", JSValue.obj [("current", JSValue.num 1), ("pageSize", JSValue.num 10)])]
    [("current", JSValue.num 2)] (JSValue.obj [])

end DripTableSpec
